import Mathlib

/-!
Shallow embedding of the `sqlite-integrated` package (files
`src/sqlite_integrated/{utils,entry,query,database,errors}.py`) and proofs
about the claims of its specification.

Modelling conventions:
* Python values reaching the literal encoder are modelled by `PyVal`.
  Python `bool` is a subclass of `int` (`isinstance(True, int)` is `True`),
  so boolean values flow through the integer branch of
  `value_to_sql_value`; they are kept as a separate constructor so this
  behaviour is visible.  List values can only hold scalars in this model;
  for the encoder only "string vs non-string element" matters, and every
  non-string scalar behaves the same way, so nothing is lost.
* Exceptions are modelled by `Except` with the error type `PyError`.
  Each raise site of the source gets the constructor matching the
  specification's error taxonomy (section 7): `transitionErr` is the
  `QueryError` raised by `Query.valid_prefixes` (the spec's
  `QuerySyntaxError`), `shapeErr` the width-mismatch `DatabaseError`
  (the spec's `ShapeError`), `noPrimaryKeyErr` the `DatabaseError` raised
  by `get_table_id_field(do_error=True)` (the spec's `SchemaError`),
  `notFoundErr`/`ambiguousErr` the two `DatabaseError` raises of
  `get_entry_by_id` (the spec's `NotFoundError`/`AmbiguousResultError`).
* Methods that mutate `self` before raising are modelled as
  `State -> Except (PyError × State) State`: the state paired with the
  error is the state of the object at the moment the exception was raised.
* The sqlite engine is external to the repository.  It is abstracted as a
  response oracle inside `DB` (`exec` maps final SQL text to the fetched
  raw rows), and its evaluation of the literals produced by
  `value_to_sql_value` is modelled from the spec by `evalLiteral`
  (section 6 executor contract: literal text of a written value determines
  the stored value; quoted text, decimal numerals and `null` have their
  standard SQL meaning).  Reals are modelled as exact decimals
  (sign, digits, decimal point), sidestepping IEEE 754 floating point.
-/

/-- A Python scalar value (element of a Python list in this model). -/
inductive PyAtom where
  | aStr (s : String)
  | aInt (i : Int)
  | aFloat (m : Int) (e : Nat)
  | aNone
  | aBool (b : Bool)
  | aOther
deriving DecidableEq, Repr

/-- A Python value as it reaches the library: strings, ints, "floats"
(modelled as exact decimals `m * 10 ^ (-e)`), `None`, bools, lists of
scalars, and anything else (`pyOther`). -/
inductive PyVal where
  | pyStr (s : String)
  | pyInt (i : Int)
  | pyFloat (m : Int) (e : Nat)
  | pyNone
  | pyBool (b : Bool)
  | pyList (l : List PyAtom)
  | pyOther
deriving DecidableEq, Repr

open PyVal

/-- Python exceptions raised by the library, one constructor per raise
site family (see the header comment for the mapping onto the spec's
error taxonomy in section 7). -/
inductive PyError where
  | transitionErr (pre : Option String) (accepted : List (Option String))
  | queryErr (msg : String)
  | typeErr (msg : String)
  | valueErr (msg : String)
  | databaseErr (msg : String)
  | shapeErr
  | noPrimaryKeyErr (table : Option String)
  | notFoundErr
  | ambiguousErr
  | indexErr
  | attributeErr
  | operationalErr (msg : String)
deriving DecidableEq, Repr

/-! ### Decimal numerals

`natReprChars n` is the ordinary decimal numeral of `n` (what Python's
`str` produces for a non-negative `int`), built from `Nat.digits`. -/

/-- Little-endian decimal digits with explicit fuel, so the kernel can
reduce it (provably equal to `Nat.digits 10` when the fuel suffices). -/
def digitsRevAux (fuel n : Nat) : List Nat :=
  match fuel with
  | 0 => []
  | fuel + 1 => if n = 0 then [] else (n % 10) :: digitsRevAux fuel (n / 10)

/-- Little-endian decimal digits of `n` (empty for zero). -/
def natDigitsRev (n : Nat) : List Nat := digitsRevAux n n

/-- Big-endian decimal digit characters of `n`; `"0"` for zero. -/
def natReprChars (n : Nat) : List Char :=
  if n = 0 then ['0'] else ((natDigitsRev n).map Nat.digitChar).reverse

/-- Python `str` of an integer: optional minus sign then decimal digits. -/
def intReprChars (i : Int) : List Char :=
  if i < 0 then '-' :: natReprChars i.natAbs else natReprChars i.natAbs

/-- The digits of `n` left-padded with zeros to at least `e + 1` digits. -/
def paddedChars (n e : Nat) : List Char :=
  List.replicate (e + 1 - (natReprChars n).length) '0' ++ natReprChars n

/-- Python decimal rendering of the non-negative decimal `n * 10 ^ (-e)`:
the padded digits of `n` with a decimal point before the last `e`
digits. -/
def decimalChars (n : Nat) (e : Nat) : List Char :=
  (paddedChars n e).take ((paddedChars n e).length - e) ++
    '.' :: (paddedChars n e).drop ((paddedChars n e).length - e)

/-- Python `str` of a float, in the exact-decimal model `m * 10 ^ (-e)`. -/
def floatReprChars (m : Int) (e : Nat) : List Char :=
  if m < 0 then '-' :: decimalChars m.natAbs e else decimalChars m.natAbs e

/-- Python `str()` of a value, as used by f-string interpolation. -/
def pyStrOf : PyVal → String
  | pyStr s => s
  | pyInt i => String.mk (intReprChars i)
  | pyFloat m e => String.mk (floatReprChars m e)
  | pyNone => "None"
  | pyBool b => if b then "True" else "False"
  | pyList _ => "[...]"
  | pyOther => "<object>"

/-! ### `sqlite_integrated.utils` -/

/-- `utils.string_to_list`: comma-separated string to list, spaces
dropped (`string.replace(" ", "").split(",")`). -/
def string_to_list (s : String) : List String :=
  (s.replace " " "").splitOn ","

/-- The single-quote escaping done by `value.replace("'", "''")` in
`utils.value_to_sql_value`, written as character recursion. -/
def escQuotes : List Char → List Char
  | [] => []
  | c :: rest => if c = '\'' then '\'' :: '\'' :: escQuotes rest else c :: escQuotes rest

/-- `utils.value_to_sql_value`: converts a Python value to SQL literal
text.  Order of the `isinstance` checks follows the source: `str`,
`int` (which in Python also captures `bool`, with `str(True) = "True"`),
`float`, `== None`, `list` (where `",".join` raises `TypeError` on any
non-string element), else `TypeError`. -/
def value_to_sql_value : PyVal → Except PyError String
  | pyStr s => .ok ("'" ++ String.mk (escQuotes s.data) ++ "'")
  | pyInt i => .ok (String.mk (intReprChars i))
  | pyBool b => .ok (if b then "True" else "False")
  | pyFloat m e => .ok (String.mk (floatReprChars m e))
  | pyNone => .ok "null"
  | pyList l =>
    if l.all (fun a => match a with | .aStr _ => true | _ => false) then
      .ok (String.intercalate "," (l.map (fun a => match a with | .aStr s => s | _ => "")))
    else
      .error (.typeErr "Cannot convert list on non-string objects to sql")
  | pyOther => .error (.typeErr "Cannot convert value of this type to sql")

/-- `utils.dict_to_sql`: comma-joined `key = literal` pairs. -/
def dict_to_sql (data : List (String × PyVal)) : Except PyError String := do
  let parts ← data.mapM (fun kv => do
    let lit ← value_to_sql_value kv.2
    return kv.1 ++ " = " ++ lit)
  return String.intercalate ", " parts

/-! ### `sqlite_integrated.entry` -/

/-- `entry.DatabaseEntry`: a Python dict (modelled as an insertion-ordered
association list, as Python dicts are insertion-ordered) tagged with the
table it belongs to.  The tag is an `Option` because `Query.run` tags
entries with `self.table`, which can be `None`. -/
structure DatabaseEntry where
  table : Option String
  data : List (String × PyVal)
deriving DecidableEq, Repr

/-- The keys of a Python dict, in insertion order. -/
def dictKeys (d : List (String × PyVal)) : List String := d.map Prod.fst

/-- The values of a Python dict, in insertion order. -/
def dictValues (d : List (String × PyVal)) : List PyVal := d.map Prod.snd

/-- Python dict assignment `d[k] = v`: update in place if the key exists,
append otherwise. -/
def dictSet (d : List (String × PyVal)) (k : String) (v : PyVal) : List (String × PyVal) :=
  if k ∈ dictKeys d then d.map (fun kv => if kv.1 = k then (k, v) else kv) else d ++ [(k, v)]

/-- The loop `for n, field in enumerate(fields): entry[field] = raw_entry[n]`
shared by `DatabaseEntry.from_raw_entry` and `utils.raw_table_to_table`.
Out-of-range tuple access raises `IndexError`. -/
def buildEntryDict (row : List PyVal) : Nat → List String → List (String × PyVal) →
    Except PyError (List (String × PyVal))
  | _, [], d => .ok d
  | n, f :: fs, d =>
    match row[n]? with
    | some v => buildEntryDict row (n + 1) fs (dictSet d f v)
    | none => .error .indexErr

/-- The `table_fields` argument of `DatabaseEntry.from_raw_entry`, which
accepts a string (split by `string_to_list`), a list, or anything else
(rejected with `ValueError`). -/
inductive FieldsArg where
  | str (s : String)
  | list (l : List String)
  | other
deriving DecidableEq, Repr

/-- `DatabaseEntry.from_raw_entry`: converts a raw row tuple plus field
names into a `DatabaseEntry`.  Width mismatch raises the `DatabaseError`
that the spec calls `ShapeError`. -/
def DatabaseEntry.from_raw_entry (raw_entry : List PyVal) (table_fields : FieldsArg)
    (table_name : Option String) : Except PyError DatabaseEntry := do
  let fields ← match table_fields with
    | .str s => pure (string_to_list s)
    | .list l => pure l
    | .other => Except.error (.valueErr "table_fields must be either `list` or `str`")
  if raw_entry.length ≠ fields.length then
    Except.error .shapeErr
  else do
    let d ← buildEntryDict raw_entry 0 fields []
    return { table := table_name, data := d }

/-- `utils.raw_table_to_table`: converts raw rows to `DatabaseEntry`s.
The source is a generator; it is modelled as the eagerly consumed list of
yielded entries.  An empty input yields nothing; otherwise only the FIRST
row is width-checked against `fields`.  `fields` is an `Option` because
`Query.run` can pass `self.fields = None` (Python then raises `TypeError`
at `len(fields)` when the first row is checked). -/
def raw_table_to_table (raw_table : List (List PyVal)) (fields : Option (List String))
    (table_name : Option String) : Except PyError (List DatabaseEntry) :=
  match raw_table with
  | [] => .ok []
  | r0 :: _ =>
    match fields with
    | none => .error (.typeErr "object of type NoneType has no len")
    | some fs =>
      if r0.length ≠ fs.length then
        .error .shapeErr
      else
        raw_table.mapM (fun r => do
          let d ← buildEntryDict r 0 fs []
          return ({ table := table_name, data := d } : DatabaseEntry))

/-! ### `sqlite_integrated.database`: schema model -/

/-- `database.ForeignKey` (dataclass): the fields needed here. -/
structure ForeignKey where
  table : String
  to_col : String
  from_col : Option String := none
deriving DecidableEq, Repr

/-- `database.Column`: an sql column as produced by `Column.__init__`
(after its validation has passed). -/
structure Column where
  name : String
  type : String
  not_null : Bool := false
  default_value : Option PyVal := none
  primary_key : Bool := false
  col_id : Option Int := none
  foreign_key : Option ForeignKey := none
deriving DecidableEq, Repr

/-- Python `str.upper`, written as a character map so that it reduces in
the kernel (ASCII-faithful, which is all the source compares against). -/
def strUpper (s : String) : String := String.mk (s.data.map Char.toUpper)

/-- `Column.__init__`: raises `DatabaseError` when the primary-key flag is
set and the declared type is not `INTEGER` up to case; otherwise builds
the column, pointing an attached foreign key back at this column. -/
def mkColumn (name : String) (type : String) (not_null : Bool)
    (default_value : Option PyVal) (primary_key : Bool) (col_id : Option Int)
    (foreign_key : Option ForeignKey) : Except PyError Column :=
  if primary_key ∧ strUpper type ≠ "INTEGER" then
    .error (.databaseErr "Primary key columns must have sqlite type: INTEGER")
  else
    .ok { name := name, type := type, not_null := not_null,
          default_value := default_value, primary_key := primary_key,
          col_id := col_id,
          foreign_key := foreign_key.map (fun fk => { fk with from_col := some name }) }

/-- The `Database` object, with the external sqlite engine abstracted as a
response oracle (spec section 6): `table_names` models
`get_table_names()`, `table_cols` models `get_table_cols(name)`
(`PRAGMA table_info`; the empty list for unknown names, including the
interpolated text of `None`), and `exec` maps a final SQL text to the
rows `cursor.execute(sql); cursor.fetchall()` produces, or to an
`sqlite3.OperationalError` message. -/
structure DB where
  table_names : List String
  table_cols : Option String → List Column
  exec : String → Except String (List (List PyVal))

/-- `Database.is_table`: membership of the name in `get_table_names()`
(Python `None in [...strings...]` is `False`). -/
def DB.is_table (db : DB) (table_name : Option String) : Bool :=
  match table_name with
  | some n => n ∈ db.table_names
  | none => false

/-- `Database.get_column_names`: raises `DatabaseError` for a
non-existing table, else the column names in ordinal order. -/
def DB.get_column_names (db : DB) (table_name : Option String) : Except PyError (List String) :=
  if db.is_table table_name then
    .ok ((db.table_cols table_name).map Column.name)
  else
    .error (.databaseErr "Can not get column names of non-existing table.")

/-- The name of the first column marked `PRIMARY KEY`, if any (the loop
body of `Database.get_table_id_field`). -/
def DB.table_id_field (db : DB) (table : Option String) : Option String :=
  ((db.table_cols table).find? (fun c => c.primary_key)).map Column.name

/-- `Database.get_table_id_field`: first primary-key column name;
with `do_error` set, raises the `DatabaseError` the spec calls
`SchemaError` when there is none. -/
def DB.get_table_id_field (db : DB) (table : Option String) (do_error : Bool) :
    Except PyError (Option String) :=
  match db.table_id_field table with
  | some n => .ok (some n)
  | none => if do_error then .error (.noPrimaryKeyErr table) else .ok none

/-! ### `sqlite_integrated.query`: the Query builder -/

/-- The possible states of `Query.fields`: `None` (initial), the `"*"`
sentinel, or a list of field names. -/
inductive FieldsVal where
  | fNone
  | fStar
  | fList (l : List String)
deriving DecidableEq, Repr

/-- The mutable state of a `Query` object (`verbose` is print-only and
omitted).  `col` is the attribute dynamically added by `WHERE`. -/
structure Query where
  db : Option DB
  sql : String
  history : List String
  fields : FieldsVal
  table : Option String
  col : Option String

/-- `Query.__init__`. -/
def Query.init (db : Option DB) : Query :=
  { db := db, sql := "", history := [], fields := .fNone, table := none, col := none }

/-- `Query.valid_prefixes`: the transition check.  The top of the call
history (`None` when empty) must be a member of the given list, else the
`QueryError` the spec calls `QuerySyntaxError` is raised, naming the
offending top-of-history and the accepted list. -/
def Query.valid_prefixes (q : Query) (ps : List (Option String)) : Except PyError Unit :=
  let pre := q.history.getLast?
  if pre ∈ ps then .ok () else .error (.transitionErr pre ps)

/-- The `selection` argument of `Query.SELECT`: a string, a list, or
anything else (rejected with `QueryError`). -/
inductive Selection where
  | str (s : String)
  | list (l : List String)
  | other
deriving DecidableEq, Repr

/-- `Query.SELECT`. -/
def Query.SELECT (q : Query) (selection : Selection) : Except (PyError × Query) Query :=
  match q.valid_prefixes [none] with
  | .error e => .error (e, q)
  | .ok _ =>
    let q := { q with history := q.history ++ ["SELECT"] }
    match selection with
    | .str s =>
      let q := if s = "*" then { q with fields := .fStar }
               else { q with fields := .fList (string_to_list s) }
      .ok { q with sql := q.sql ++ "SELECT " ++ s ++ " " }
    | .list l =>
      .ok { q with fields := .fList l,
                   sql := q.sql ++ "SELECT " ++ String.intercalate ", " l ++ " " }
    | .other => .error (.queryErr "SELECT statement selection must be either `str` or `list`", q)

/-- `Query.FROM`.  Note the source sets `self.table` before the
field-subset check, so a failing check leaves the table recorded. -/
def Query.FROM (q : Query) (table_name : String) : Except (PyError × Query) Query :=
  match q.valid_prefixes [some "SELECT"] with
  | .error e => .error (e, q)
  | .ok _ =>
    let q := { q with table := some table_name }
    let advance := fun (q : Query) =>
      { q with history := q.history ++ ["FROM"],
               sql := q.sql ++ "FROM " ++ table_name ++ " " }
    match q.db with
    | none => .ok (advance q)
    | some db =>
      match db.get_column_names (some table_name) with
      | .error e => .error (e, q)
      | .ok table_fields =>
        match q.fields with
        | .fStar => .ok (advance q)
        | .fNone => .error (.typeErr "argument of type NoneType is not iterable", q)
        | .fList l =>
          if l.all (fun f => f ∈ table_fields) then .ok (advance q)
          else .error (.queryErr "Some selected field(s) are not fields/columns in the table", q)

/-- `Query.WHERE`.  The default `value` is the empty string, which takes
the raw-condition escape hatch; `None` produces an `is null` predicate;
anything else an equality predicate against the encoded literal. -/
def Query.WHERE (q : Query) (col_name : String) (value : PyVal) : Except (PyError × Query) Query :=
  match q.valid_prefixes [some "FROM", some "SET", some "DELETE_FROM"] with
  | .error e => .error (e, q)
  | .ok _ =>
    let q := { q with history := q.history ++ ["WHERE"] }
    if value ≠ pyStr "" then
      if value = pyNone then
        .ok { q with sql := q.sql ++ "WHERE " ++ col_name ++ " is null" }
      else
        match value_to_sql_value value with
        | .error e => .error (e, q)
        | .ok lit => .ok { q with sql := q.sql ++ "WHERE " ++ col_name ++ " = " ++ lit }
    else
      let q := { q with sql := q.sql ++ "WHERE " ++ col_name ++ " " }
      if col_name.contains '=' then .ok q
      else .ok { q with col := some (col_name.replace " " "") }

/-- `Query.LIKE`. -/
def Query.LIKE (q : Query) (pattern : PyVal) : Except (PyError × Query) Query :=
  match q.valid_prefixes [some "WHERE"] with
  | .error e => .error (e, q)
  | .ok _ =>
    let q := { q with history := q.history ++ ["LIKE"] }
    match value_to_sql_value pattern with
    | .error e => .error (e, q)
    | .ok lit => .ok { q with sql := q.sql ++ "LIKE " ++ lit ++ " " }

/-- `Query.UPDATE`. -/
def Query.UPDATE (q : Query) (table_name : String) : Except (PyError × Query) Query :=
  match q.valid_prefixes [none] with
  | .error e => .error (e, q)
  | .ok _ =>
    let q := { q with history := q.history ++ ["UPDATE"] }
    let advance := fun (q : Query) =>
      { q with table := some table_name, sql := q.sql ++ "UPDATE " ++ table_name ++ " " }
    match q.db with
    | none => .ok (advance q)
    | some db =>
      if ¬ db.is_table (some table_name) then
        .error (.queryErr "Database has no table with that name", q)
      else
        match db.get_column_names (some table_name) with
        | .error e => .error (e, q)
        | .ok names => .ok (advance { q with fields := .fList names })

/-- The subset check `set(data).issubset(self.fields)` of `SET` and
`VALUES`: against a field list it is key-set inclusion; against the `"*"`
sentinel Python iterates the string (so only the key `"*"` is allowed);
against `None` Python raises `TypeError`. -/
def keysSubsetOfFields (keys : List String) : FieldsVal → Except PyError Bool
  | .fList l => .ok (keys.all (fun k => k ∈ l))
  | .fStar => .ok (keys.all (fun k => k = "*"))
  | .fNone => .error (.typeErr "argument of type NoneType is not iterable")

/-- `Query.SET`. -/
def Query.SET (q : Query) (data : List (String × PyVal)) : Except (PyError × Query) Query :=
  match q.valid_prefixes [some "UPDATE"] with
  | .error e => .error (e, q)
  | .ok _ =>
    let q := { q with history := q.history ++ ["SET"] }
    match keysSubsetOfFields (dictKeys data) q.fields with
    | .error e => .error (e, q)
    | .ok false => .error (.queryErr "Data keys are not a subset of table fields/columns", q)
    | .ok true =>
      match dict_to_sql data with
      | .error e => .error (e, q)
      | .ok s => .ok { q with sql := q.sql ++ "SET " ++ s ++ " " }

/-- `Query.INSERT_INTO`. -/
def Query.INSERT_INTO (q : Query) (table_name : String) : Except (PyError × Query) Query :=
  match q.valid_prefixes [none] with
  | .error e => .error (e, q)
  | .ok _ =>
    let q := { q with history := q.history ++ ["INSERT_INTO"], table := some table_name }
    let advance := fun (q : Query) =>
      { q with sql := q.sql ++ "INSERT INTO " ++ table_name ++ " " }
    match q.db with
    | none => .ok (advance q)
    | some db =>
      match db.get_column_names (some table_name) with
      | .error e => .error (e, q)
      | .ok names => .ok (advance { q with fields := .fList names })

/-- `Query.VALUES`. -/
def Query.VALUES (q : Query) (data : List (String × PyVal)) : Except (PyError × Query) Query :=
  match q.valid_prefixes [some "INSERT_INTO"] with
  | .error e => .error (e, q)
  | .ok _ =>
    let q := { q with history := q.history ++ ["VALUES"] }
    match keysSubsetOfFields (dictKeys data) q.fields with
    | .error e => .error (e, q)
    | .ok false => .error (.queryErr "Data keys are not a subset of table fields/columns", q)
    | .ok true =>
      match data.mapM (fun kv => value_to_sql_value kv.2) with
      | .error e => .error (e, q)
      | .ok lits =>
        .ok { q with sql := q.sql ++ "(" ++ String.intercalate ", " (dictKeys data)
                            ++ ") VALUES (" ++ String.intercalate ", " lits ++ ") " }

/-- `Query.DELETE_FROM`.  Note it REPLACES `self.sql` instead of
appending. -/
def Query.DELETE_FROM (q : Query) (table_name : String) : Except (PyError × Query) Query :=
  match q.valid_prefixes [none] with
  | .error e => .error (e, q)
  | .ok _ =>
    let q := { q with history := q.history ++ ["DELETE_FROM"] }
    match q.db with
    | some db =>
      if ¬ (table_name ∈ db.table_names) then
        .error (.queryErr "Can not perform DELETE FROM on a non-existing table", q)
      else
        .ok { q with table := some table_name, sql := "DELETE FROM " ++ table_name ++ " " }
    | none =>
      .ok { q with table := some table_name, sql := "DELETE FROM " ++ table_name ++ " " }

/-- The result of `Query.run`: the raw rows when `raw` is set, else the
decoded table (the generator of `DatabaseEntry`, eagerly consumed). -/
inductive RunResult where
  | rawRes (rows : List (List PyVal))
  | tableRes (entries : List DatabaseEntry)

/-- `Query.run`: resolves the database (argument, else the attached one,
else `QueryError`), executes the sql text (engine failures re-raised as
`DatabaseError`), and either returns the raw rows or — after resolving a
`"*"` field list into the table's column names by MUTATING `self.fields`
— decodes them through `raw_table_to_table`. -/
def Query.run (q : Query) (dbArg : Option DB) (raw : Bool) :
    Except (PyError × Query) (RunResult × Query) :=
  let db? := match dbArg with | some d => some d | none => q.db
  match db? with
  | none => .error (.queryErr "Query does not have a database to execute on.", q)
  | some db =>
    match db.exec q.sql with
    | .error msg => .error (.databaseErr msg, q)
    | .ok results =>
      if raw then .ok (.rawRes results, q)
      else
        match q.fields with
        | .fStar =>
          match db.get_column_names q.table with
          | .error e => .error (e, q)
          | .ok names =>
            let q := { q with fields := .fList names }
            match raw_table_to_table results (some names) q.table with
            | .error e => .error (e, q)
            | .ok entries => .ok (.tableRes entries, q)
        | .fNone =>
          match raw_table_to_table results none q.table with
          | .error e => .error (e, q)
          | .ok entries => .ok (.tableRes entries, q)
        | .fList l =>
          match raw_table_to_table results (some l) q.table with
          | .error e => .error (e, q)
          | .ok entries => .ok (.tableRes entries, q)

/-! ### `sqlite_integrated.database`: facade operations -/

/-- `list.remove` over a list of names: removes the first occurrence,
raising `ValueError` when absent. -/
def listRemove : List String → String → Except PyError (List String)
  | [], _ => .error (.valueErr "list.remove(x): x not in list")
  | x :: xs, y => if x = y then .ok xs else do
      let r ← listRemove xs y
      return x :: r

/-- `Database.fill_null`: removes the entry's keys from the table's field
list (`list.remove`, so a key outside the table raises `ValueError`) and
appends a `None` value for every remaining field. -/
def DB.fill_null (db : DB) (entry : DatabaseEntry) : Except PyError DatabaseEntry := do
  let t_fields ← db.get_column_names entry.table
  let remaining ← (dictKeys entry.data).foldlM (fun acc f => listRemove acc f) t_fields
  return { entry with data := remaining.foldl (fun d f => dictSet d f pyNone) entry.data }

/-- The f-string rendering of `self.table` (`None` prints as `"None"`). -/
def optTableText : Option String → String
  | some s => s
  | none => "None"

/-- `Database.get_entry_by_id`: requires a declared primary key (else the
`SchemaError`-class error), then runs
`SELECT * FROM {table} WHERE {id_field} = {ID}` and checks the number of
answers: zero raises the `NotFoundError`-class error, more than one the
`AmbiguousResultError`-class error, exactly one is decoded by
`DatabaseEntry.from_raw_entry` against the table's column names. -/
def DB.get_entry_by_id (db : DB) (table : Option String) (ID : PyVal) :
    Except PyError DatabaseEntry :=
  match db.table_id_field table with
  | none => .error (.noPrimaryKeyErr table)
  | some id_field =>
    if ¬ db.is_table table then
      .error (.databaseErr "Database contains no table with that name.")
    else
      let sql := "SELECT * FROM " ++ optTableText table ++ " WHERE " ++ id_field
                  ++ " = " ++ pyStrOf ID
      match db.exec sql with
      | .error msg => .error (.operationalErr msg)
      | .ok answer =>
        if answer.length ≠ 1 then
          if answer.length > 1 then .error .ambiguousErr
          else .error .notFoundErr
        else
          match answer with
          | [row] =>
            match db.get_column_names table with
            | .error e => .error e
            | .ok names => DatabaseEntry.from_raw_entry row (.list names) table
          | _ => .error (.databaseErr "unreachable")

/-- The `entry` argument of `Database.add_entry`: either a plain dict
(then a table name is required) or a `DatabaseEntry`. -/
inductive EntryArg where
  | dict (d : List (String × PyVal))
  | entry (e : DatabaseEntry)

/-- `Database.add_entry`.  Mirrors the source line by line: resolve the
entry, check the table exists (the failing f-string touches the
non-existent `self.table`, hence `AttributeError`), null the primary-key
field if there is one (Python truthiness: an empty-string column name
counts as no key), optionally fill nulls, require the key set to equal
the table's field set, run `INSERT INTO ... VALUES ...` through the
builder, and finally return `last_insert_rowid()` — but gated on
`self.get_table_id_field(table)` with the `table` PARAMETER, not
`entry.table`. -/
def DB.add_entry (db : DB) (arg : EntryArg) (table : Option String) (fill_null : Bool) :
    Except PyError (Option PyVal) := do
  let entry ← match arg with
    | .dict d =>
      match table with
      | none => Except.error (.databaseErr "Please provide the table that the data should be inserted in.")
      | some t => pure ({ table := some t, data := d } : DatabaseEntry)
    | .entry e => pure e
  match entry.table with
  | none => Except.error .attributeErr
  | some t =>
    if ¬ (t ∈ db.table_names) then
      Except.error .attributeErr
    else do
      let table_fields ← db.get_column_names (some t)
      let id_field ← db.get_table_id_field (some t) false
      let entry := match id_field with
        | some f =>
          if f = "" then entry else { entry with data := dictSet entry.data f pyNone }
        | none => entry
      let entry ← if fill_null then db.fill_null entry else pure entry
      if ¬ ((dictKeys entry.data).all (fun k => k ∈ table_fields) ∧
            table_fields.all (fun f => f ∈ dictKeys entry.data)) then
        Except.error (.databaseErr "entry fields are not the same as the table fields")
      else do
        let q := Query.init (some db)
        let q ← match q.INSERT_INTO t with
          | .error (e, _) => Except.error e
          | .ok q => pure q
        let q ← match q.VALUES entry.data with
          | .error (e, _) => Except.error e
          | .ok q => pure q
        let _ ← match q.run none false with
          | .error (e, _) => Except.error e
          | .ok r => pure r
        match db.get_table_id_field table false with
        | .error e => Except.error e
        | .ok none => return none
        | .ok (some name) =>
          if name = "" then
            return none
          else
            match db.exec "SELECT last_insert_rowid()" with
            | .error msg => Except.error (.operationalErr msg)
            | .ok answer =>
              match answer with
              | (v :: _) :: _ => return (some v)
              | _ => Except.error .indexErr

/-! ### The executor's literal semantics (modelled from the spec)

Modelled from the spec: the sqlite engine itself is not part of this
repository (spec section 6 lists the executor as an external collaborator
that "accepts one SQL statement string").  `evalLiteral` models, from the
spec's executor contract and standard SQL, the value the engine stores
for one literal in a `VALUES (...)` list: single-quoted text with doubled
embedded quotes, decimal integer and decimal-point numerals with an
optional minus sign, and the `null` keyword.  It covers exactly the
literal shapes `value_to_sql_value` emits. -/

/-- Numeric value of a decimal digit character. -/
def digitVal (c : Char) : Nat := c.toNat - '0'.toNat

/-- Parses the part of a string literal after the opening quote: `''`
is an escaped quote, a lone quote at the end closes the literal, a lone
quote elsewhere is malformed. -/
def parseStrLit : List Char → Option (List Char)
  | [] => none
  | c :: rest =>
    if c = '\'' then
      match rest with
      | [] => some []
      | c2 :: rest2 =>
        if c2 = '\'' then (parseStrLit rest2).map (fun l => '\'' :: l) else none
    else (parseStrLit rest).map (fun l => c :: l)

/-- Parses a non-empty all-digit character list as a natural number. -/
def parseNatDigits (l : List Char) : Option Nat :=
  if l.isEmpty then none
  else if l.all Char.isDigit then some (l.foldl (fun a c => a * 10 + digitVal c) 0)
  else none

/-- Parses an optionally signed decimal integer numeral. -/
def parseIntLit : List Char → Option Int
  | [] => none
  | c :: rest =>
    if c = '-' then (parseNatDigits rest).map (fun n => -(n : Int))
    else (parseNatDigits (c :: rest)).map (fun n => (n : Int))

/-- Splits a character list at its unique `'.'`; `none` if there is not
exactly one. -/
def splitDot : List Char → Option (List Char × List Char)
  | [] => none
  | c :: rest =>
    if c = '.' then (if '.' ∈ rest then none else some ([], rest))
    else (splitDot rest).map (fun p => (c :: p.1, p.2))

/-- Parses an unsigned decimal-point numeral into mantissa and number of
fractional digits. -/
def parseDecDigits (l : List Char) : Option (Nat × Nat) := do
  let (ip, fp) ← splitDot l
  if ip.isEmpty ∨ fp.isEmpty then none
  else do
    let n ← parseNatDigits (ip ++ fp)
    return (n, fp.length)

/-- Parses an optionally signed decimal-point numeral. -/
def parseFloatLit : List Char → Option (Int × Nat)
  | [] => none
  | c :: rest =>
    if c = '-' then (parseDecDigits rest).map (fun p => (-(p.1 : Int), p.2))
    else (parseDecDigits (c :: rest)).map (fun p => ((p.1 : Int), p.2))

/-- Modelled from the spec: the engine's evaluation of one SQL literal
(see the section header above). -/
def evalLiteral (s : String) : Option PyVal :=
  match s.data with
  | [] => none
  | c :: rest =>
    if c = '\'' then (parseStrLit rest).map (fun l => pyStr (String.mk l))
    else if s = "null" then some pyNone
    else
      match parseIntLit s.data with
      | some i => some (pyInt i)
      | none =>
        match parseFloatLit s.data with
        | some (m, e) => some (pyFloat m e)
        | none => none

/-- The values the engine can hand back in a raw row (spec section 6:
text, integer, real, null; reals carry at least one fractional digit the
way Python prints them). -/
def Storable : PyVal → Prop
  | pyStr _ => True
  | pyInt _ => True
  | pyFloat _ e => 1 ≤ e
  | pyNone => True
  | _ => False

instance : DecidablePred Storable := fun v => by
  unfold Storable
  cases v <;> infer_instance

/-! ## Claims -/

/-! ### C9: primary-key columns must be INTEGER -/

/-- C9: every `Column` built by `Column.__init__` satisfies the invariant
that a set primary-key flag forces declared type `integer`
(case-insensitively), and constructing one with the flag set and any
other declared type raises an error. -/
theorem column_primary_key_invariant :
    ∀ (name type : String) (nn : Bool) (dv : Option PyVal) (pk : Bool)
      (cid : Option Int) (fk : Option ForeignKey),
    (∀ c : Column, mkColumn name type nn dv pk cid fk = .ok c →
      (c.primary_key = true → strUpper c.type = "INTEGER")) ∧
    (pk = true → strUpper type ≠ "INTEGER" →
      ∃ msg, mkColumn name type nn dv pk cid fk = .error (.databaseErr msg)) := by
  intro name type nn dv pk cid fk
  constructor
  · intro c hc hpk
    unfold mkColumn at hc
    split at hc
    · exact absurd hc (by simp)
    · next h =>
      rw [not_and_or, not_not] at h
      cases h with
      | inl h =>
        cases hc
        exact absurd hpk (by simpa using h)
      | inr h =>
        cases hc
        exact h
  · intro hpk hty
    refine ⟨"Primary key columns must have sqlite type: INTEGER", ?_⟩
    unfold mkColumn
    rw [if_pos ⟨hpk, hty⟩]

/-- Witness for C9 at a concrete input: a `text` primary-key column is
rejected, and an accepted `integer` one satisfies the invariant. -/
theorem column_primary_key_invariant_witness :
    ∃ msg, mkColumn "id" "text" false none true none none = .error (.databaseErr msg) :=
  (column_primary_key_invariant "id" "text" false none true none none).2 rfl (by decide)

/-! ### C4: the literal encoder -/

/-- The quote escaping of the encoder, reformulated: each embedded single
quote is doubled, every other character kept. -/
theorem escQuotes_eq_flatMap (l : List Char) :
    escQuotes l = l.flatMap (fun c => if c = '\'' then [c, c] else [c]) := by
  induction l with
  | nil => rfl
  | cons c rest ih =>
    by_cases h : c = '\'' <;> simp [escQuotes, h, ih]

/-- C4 counterexample: Python `bool` is a subclass of `int`
(`isinstance(True, int)` is `True`), so the encoder renders `True` as the
text `"True"` through the integer branch instead of failing with a
`TypeError`-class error, although `bool` is not one of the listed types
(string, integer, real, None, list of strings). -/
theorem value_to_sql_value_bool_counterexample :
    value_to_sql_value (pyBool true) = .ok "True" ∧
    ∀ e : PyError, value_to_sql_value (pyBool true) ≠ .error e := by
  refine ⟨rfl, ?_⟩
  intro e h
  simp [value_to_sql_value] at h

/-- C4 (amended): characterization of `value_to_sql_value`:
a string is wrapped in single quotes with embedded quotes doubled; an
integer or real yields its numeral text; `None` yields `null`; a list of
strings is comma-joined; a list with a non-string element and any value
of any other type fail with `TypeError` — except Python booleans, which
the `isinstance(value, int)` branch renders as `True`/`False`. -/
theorem value_to_sql_value_characterization :
    (∀ s : String, value_to_sql_value (pyStr s) =
      .ok ("'" ++ String.mk (s.data.flatMap (fun c => if c = '\'' then [c, c] else [c])) ++ "'")) ∧
    (∀ i : Int, value_to_sql_value (pyInt i) = .ok (String.mk (intReprChars i))) ∧
    (∀ (m : Int) (e : Nat), value_to_sql_value (pyFloat m e) = .ok (String.mk (floatReprChars m e))) ∧
    (value_to_sql_value pyNone = .ok "null") ∧
    (∀ strs : List String,
      value_to_sql_value (pyList (strs.map PyAtom.aStr)) = .ok (String.intercalate "," strs)) ∧
    (∀ l : List PyAtom, (∃ a ∈ l, ∀ s, a ≠ PyAtom.aStr s) →
      value_to_sql_value (pyList l) =
        .error (.typeErr "Cannot convert list on non-string objects to sql")) ∧
    (value_to_sql_value pyOther =
      .error (.typeErr "Cannot convert value of this type to sql")) ∧
    (∀ b : Bool, value_to_sql_value (pyBool b) = .ok (if b then "True" else "False")) := by
  refine ⟨?_, ?_, ?_, rfl, ?_, ?_, rfl, ?_⟩
  · intro s
    simp [value_to_sql_value, escQuotes_eq_flatMap]
  · intro i; rfl
  · intro m e; rfl
  · intro strs
    show (if _ then _ else _) = _
    rw [if_pos, List.map_map]
    · congr 1
      congr 1
      exact List.map_id strs
    · simp
  · intro l hex
    obtain ⟨a, ha, hne⟩ := hex
    show (if _ then _ else _) = _
    rw [if_neg]
    intro hall
    have := List.all_eq_true.mp hall a ha
    cases a with
    | aStr s => exact hne s rfl
    | _ => simp_all
  · intro b; rfl

/-- Witness for C4 at concrete inputs: an embedded quote is doubled, a
negative integer prints its numeral, a real its decimal, a string list is
comma-joined, and a list holding an integer fails with `TypeError`. -/
theorem value_to_sql_value_characterization_witness :
    value_to_sql_value (pyStr "it's") = .ok "'it''s'" ∧
    value_to_sql_value (pyInt (-5)) = .ok "-5" ∧
    value_to_sql_value pyNone = .ok "null" ∧
    value_to_sql_value (pyList [.aStr "a", .aStr "b"]) = .ok "a,b" ∧
    value_to_sql_value (pyList [.aStr "a", .aInt 1]) =
      .error (.typeErr "Cannot convert list on non-string objects to sql") := by
  refine ⟨?_, ?_, value_to_sql_value_characterization.2.2.2.1, ?_, ?_⟩
  · rw [value_to_sql_value_characterization.1 "it's"]; rfl
  · rw [value_to_sql_value_characterization.2.1 (-5)]; rfl
  · have h := value_to_sql_value_characterization.2.2.2.2.1 ["a", "b"]
    simpa using h
  · exact value_to_sql_value_characterization.2.2.2.2.2.1 [.aStr "a", .aInt 1]
      ⟨.aInt 1, by simp, fun s h => PyAtom.noConfusion h⟩

/-! ### C1: the clause transition table -/

/-- One clause-method call on the builder, with its argument. -/
inductive ClauseCall where
  | cSELECT (s : Selection)
  | cFROM (t : String)
  | cWHERE (c : String) (v : PyVal)
  | cLIKE (p : PyVal)
  | cUPDATE (t : String)
  | cSET (d : List (String × PyVal))
  | cINSERT_INTO (t : String)
  | cVALUES (d : List (String × PyVal))
  | cDELETE_FROM (t : String)

/-- The history tag a clause method appends. -/
def clauseTag : ClauseCall → String
  | .cSELECT _ => "SELECT"
  | .cFROM _ => "FROM"
  | .cWHERE _ _ => "WHERE"
  | .cLIKE _ => "LIKE"
  | .cUPDATE _ => "UPDATE"
  | .cSET _ => "SET"
  | .cINSERT_INTO _ => "INSERT_INTO"
  | .cVALUES _ => "VALUES"
  | .cDELETE_FROM _ => "DELETE_FROM"

/-- The list each clause method passes to `valid_prefixes` in the source. -/
def legalPrefixes : ClauseCall → List (Option String)
  | .cSELECT _ => [none]
  | .cFROM _ => [some "SELECT"]
  | .cWHERE _ _ => [some "FROM", some "SET", some "DELETE_FROM"]
  | .cLIKE _ => [some "WHERE"]
  | .cUPDATE _ => [none]
  | .cSET _ => [some "UPDATE"]
  | .cINSERT_INTO _ => [none]
  | .cVALUES _ => [some "INSERT_INTO"]
  | .cDELETE_FROM _ => [none]

/-- Dispatch of a clause call to the corresponding builder method. -/
def applyClause : ClauseCall → Query → Except (PyError × Query) Query
  | .cSELECT s, q => q.SELECT s
  | .cFROM t, q => q.FROM t
  | .cWHERE c v, q => q.WHERE c v
  | .cLIKE p, q => q.LIKE p
  | .cUPDATE t, q => q.UPDATE t
  | .cSET d, q => q.SET d
  | .cINSERT_INTO t, q => q.INSERT_INTO t
  | .cVALUES d, q => q.VALUES d
  | .cDELETE_FROM t, q => q.DELETE_FROM t

/-- The legal-next table of spec section 4.3, written independently of
the code's per-method lists: the set of clause tags that may legally
follow a given top-of-history. -/
def specNextSet : Option String → List String
  | none => ["SELECT", "UPDATE", "INSERT_INTO", "DELETE_FROM"]
  | some p =>
    if p = "SELECT" then ["FROM"]
    else if p = "FROM" then ["WHERE"]
    else if p = "WHERE" then ["LIKE"]
    else if p = "UPDATE" then ["SET"]
    else if p = "SET" then ["WHERE"]
    else if p = "INSERT_INTO" then ["VALUES"]
    else if p = "DELETE_FROM" then ["WHERE"]
    else []

/-- Does a builder-method result consist of the transition-check error? -/
def isTransitionErr : Except (PyError × Query) Query → Bool
  | .error (.transitionErr _ _, _) => true
  | _ => false

theorem valid_prefixes_ok (q : Query) (ps : List (Option String))
    (h : q.history.getLast? ∈ ps) : q.valid_prefixes ps = .ok () := by
  simp only [Query.valid_prefixes]
  rw [if_pos h]

theorem valid_prefixes_err (q : Query) (ps : List (Option String))
    (h : q.history.getLast? ∉ ps) :
    q.valid_prefixes ps = .error (.transitionErr q.history.getLast? ps) := by
  simp only [Query.valid_prefixes]
  rw [if_neg h]

/-- The code's per-method prefix lists agree with the spec's transition
table: the top of history is in a clause's `valid_prefixes` list exactly
when the clause's tag is a legal next clause for that top. -/
theorem mem_legal_iff_spec (c : ClauseCall) (pre : Option String) :
    pre ∈ legalPrefixes c ↔ clauseTag c ∈ specNextSet pre := by
  cases c <;> cases pre <;>
    simp only [specNextSet, legalPrefixes, clauseTag] <;>
    first
      | (split_ifs <;> simp_all)
      | simp_all

theorem exceptBind_error {ε α β : Type} (e : ε) (g : α → Except ε β) :
    (Except.error e >>= g) = Except.error e := rfl

theorem exceptBind_ok {ε α β : Type} (a : α) (g : α → Except ε β) :
    (Except.ok a >>= g) = g a := rfl

theorem exceptBind_pure {ε α β : Type} (a : α) (g : α → Except ε β) :
    ((pure a : Except ε α) >>= g) = g a := rfl

theorem get_column_names_error_shape (db : DB) (t : Option String) (e : PyError)
    (h : db.get_column_names t = .error e) : ∃ m, e = .databaseErr m := by
  unfold DB.get_column_names at h
  split at h
  · exact Except.noConfusion h
  · simp only [Except.error.injEq] at h
    exact ⟨_, h.symm⟩

theorem value_to_sql_value_error_shape (v : PyVal) (e : PyError)
    (h : value_to_sql_value v = .error e) : ∃ m, e = .typeErr m := by
  cases v with
  | pyList l =>
    simp only [value_to_sql_value] at h
    split at h
    · exact Except.noConfusion h
    · simp only [Except.error.injEq] at h
      exact ⟨_, h.symm⟩
  | pyOther =>
    simp only [value_to_sql_value, Except.error.injEq] at h
    exact ⟨_, h.symm⟩
  | pyStr s => exact Except.noConfusion h
  | pyInt i => exact Except.noConfusion h
  | pyFloat m e => exact Except.noConfusion h
  | pyNone => exact Except.noConfusion h
  | pyBool b => exact Except.noConfusion h

theorem mapM_error_shape {α β : Type} (f : α → Except PyError β) (P : PyError → Prop)
    (hf : ∀ a e, f a = .error e → P e) :
    ∀ (l : List α) (e : PyError), l.mapM f = .error e → P e := by
  intro l
  induction l with
  | nil =>
    intro e h
    rw [List.mapM_nil] at h
    exact Except.noConfusion h
  | cons a rest ih =>
    intro e h
    rw [List.mapM_cons] at h
    cases hfa : f a with
    | error e' =>
      rw [hfa, exceptBind_error] at h
      injection h with h2
      exact h2 ▸ hf a e' hfa
    | ok b =>
      rw [hfa, exceptBind_ok] at h
      cases hrest : rest.mapM f with
      | error e' =>
        rw [hrest, exceptBind_error] at h
        injection h with h2
        exact h2 ▸ ih e' hrest
      | ok bs =>
        rw [hrest, exceptBind_ok] at h
        exact Except.noConfusion h

theorem notTrans_of_get_column_names {db : DB} {t : Option String} {e : PyError}
    (q' : Query) (h : db.get_column_names t = .error e) :
    isTransitionErr (.error (e, q')) = false := by
  obtain ⟨m, hm⟩ := get_column_names_error_shape db t e h
  subst hm; rfl

theorem notTrans_of_vtsv {v : PyVal} {e : PyError}
    (q' : Query) (h : value_to_sql_value v = .error e) :
    isTransitionErr (.error (e, q')) = false := by
  obtain ⟨m, hm⟩ := value_to_sql_value_error_shape v e h
  subst hm; rfl

theorem keysSubsetOfFields_error_shape {ks : List String} {fv : FieldsVal} {e : PyError}
    (h : keysSubsetOfFields ks fv = .error e) : ∃ m, e = .typeErr m := by
  cases fv with
  | fList l => exact Except.noConfusion h
  | fStar => exact Except.noConfusion h
  | fNone =>
    simp only [keysSubsetOfFields, Except.error.injEq] at h
    exact ⟨_, h.symm⟩

theorem notTrans_of_keysSubset {ks : List String} {fv : FieldsVal} {e : PyError}
    (q' : Query) (h : keysSubsetOfFields ks fv = .error e) :
    isTransitionErr (.error (e, q')) = false := by
  obtain ⟨m, hm⟩ := keysSubsetOfFields_error_shape h
  subst hm; rfl

theorem mapM_vtsv_error_shape {d : List (String × PyVal)} {e : PyError}
    (h : d.mapM (fun kv => value_to_sql_value kv.2) = .error e) : ∃ m, e = .typeErr m :=
  mapM_error_shape _ (fun e => ∃ m, e = PyError.typeErr m)
    (fun a e3 ha => value_to_sql_value_error_shape a.2 e3 ha) d e h

theorem notTrans_of_mapM_vtsv {d : List (String × PyVal)} {e : PyError}
    (q' : Query) (h : d.mapM (fun kv => value_to_sql_value kv.2) = .error e) :
    isTransitionErr (.error (e, q')) = false := by
  obtain ⟨m, hm⟩ := mapM_vtsv_error_shape h
  subst hm; rfl

theorem dict_to_sql_error_shape {d : List (String × PyVal)} {e : PyError}
    (h : dict_to_sql d = .error e) : ∃ m, e = .typeErr m := by
  unfold dict_to_sql at h
  cases hmm : d.mapM (fun kv => do
      let lit ← value_to_sql_value kv.2
      return kv.1 ++ " = " ++ lit) with
  | error e2 =>
    rw [hmm, exceptBind_error] at h
    injection h with h2
    subst h2
    refine mapM_error_shape _ (fun e => ∃ m, e = PyError.typeErr m) ?_ d e2 hmm
    intro a e3 ha
    cases hv : value_to_sql_value a.2 with
    | error e4 =>
      rw [hv, exceptBind_error] at ha
      injection ha with h4
      exact h4 ▸ value_to_sql_value_error_shape a.2 e4 hv
    | ok lit =>
      rw [hv, exceptBind_ok] at ha
      exact Except.noConfusion ha
  | ok parts =>
    rw [hmm, exceptBind_ok] at h
    exact Except.noConfusion h

theorem notTrans_of_dict_to_sql {d : List (String × PyVal)} {e : PyError}
    (q' : Query) (h : dict_to_sql d = .error e) :
    isTransitionErr (.error (e, q')) = false := by
  obtain ⟨m, hm⟩ := dict_to_sql_error_shape h
  subst hm; rfl

/-- C1: a clause call passes the transition check exactly when the top of
the call history is in that clause's legal-prefix set of the section 4.3
table (rendered independently as `specNextSet`); every call outside the
legal-next set raises the `QuerySyntaxError`-class error carrying the
offending prefix and the accepted set, and returns the builder completely
unchanged — in particular its sql text. -/
theorem clause_transition_table :
    ∀ (c : ClauseCall) (q : Query),
    (clauseTag c ∈ specNextSet q.history.getLast? →
      isTransitionErr (applyClause c q) = false) ∧
    (clauseTag c ∉ specNextSet q.history.getLast? →
      applyClause c q = .error (.transitionErr q.history.getLast? (legalPrefixes c), q)) := by
  intro c q
  have hiff := mem_legal_iff_spec c q.history.getLast?
  constructor
  · intro hs
    have hok := valid_prefixes_ok q (legalPrefixes c) (hiff.mpr hs)
    cases c <;>
      simp only [applyClause, Query.SELECT, Query.FROM, Query.WHERE, Query.LIKE,
        Query.UPDATE, Query.SET, Query.INSERT_INTO, Query.VALUES, Query.DELETE_FROM,
        legalPrefixes] at hok ⊢ <;>
      rw [hok] <;>
      repeat' split
    all_goals
      first
        | rfl
        | exact notTrans_of_get_column_names _ (by assumption)
        | exact notTrans_of_vtsv _ (by assumption)
        | exact notTrans_of_keysSubset _ (by assumption)
        | exact notTrans_of_dict_to_sql _ (by assumption)
        | exact notTrans_of_mapM_vtsv _ (by assumption)
        | simp_all
  · intro hs
    have hmem : q.history.getLast? ∉ legalPrefixes c := fun hm => hs (hiff.mp hm)
    have herr := valid_prefixes_err q (legalPrefixes c) hmem
    cases c <;>
      simp only [applyClause, Query.SELECT, Query.FROM, Query.WHERE, Query.LIKE,
        Query.UPDATE, Query.SET, Query.INSERT_INTO, Query.VALUES, Query.DELETE_FROM,
        legalPrefixes] at herr ⊢ <;>
      rw [herr]

/-- Witness for C1: with an empty history `SELECT` passes the check,
while `FROM` is rejected with the error naming the empty prefix and the
accepted set, leaving the builder (hence its sql text) unchanged. -/
theorem clause_transition_table_witness :
    isTransitionErr (applyClause (.cSELECT (.str "*")) (Query.init none)) = false ∧
    applyClause (.cFROM "t") (Query.init none) =
      .error (.transitionErr none [some "SELECT"], Query.init none) :=
  ⟨(clause_transition_table (.cSELECT (.str "*")) (Query.init none)).1 (by decide),
   (clause_transition_table (.cFROM "t") (Query.init none)).2 (by decide)⟩

/-! ### C10: the WHERE value branches -/

/-- C10: in a state where WHERE is legal, the empty-string value (the
Python default) takes the no-value escape hatch and appends
`WHERE <col> ` verbatim — so the two-argument form cannot express an
equality comparison against the empty string — while the null sentinel
appends an `is null` predicate and any other value an equality predicate
against its encoded literal. -/
theorem where_value_branches :
    ∀ (q : Query) (col : String) (v : PyVal),
    q.history.getLast? ∈ [some "FROM", some "SET", some "DELETE_FROM"] →
    ((v = pyStr "" →
      ∃ q', q.WHERE col v = .ok q' ∧ q'.sql = q.sql ++ "WHERE " ++ col ++ " ") ∧
     (v = pyNone →
      ∃ q', q.WHERE col v = .ok q' ∧ q'.sql = q.sql ++ "WHERE " ++ col ++ " is null") ∧
     (∀ lit, v ≠ pyStr "" → v ≠ pyNone → value_to_sql_value v = .ok lit →
      ∃ q', q.WHERE col v = .ok q' ∧ q'.sql = q.sql ++ "WHERE " ++ col ++ " = " ++ lit)) := by
  intro q col v hmem
  have hok := valid_prefixes_ok q [some "FROM", some "SET", some "DELETE_FROM"] hmem
  refine ⟨?_, ?_, ?_⟩
  · intro hv; subst hv
    by_cases hc : col.contains '='
    · refine ⟨{ q with history := q.history ++ ["WHERE"],
                       sql := q.sql ++ "WHERE " ++ col ++ " " }, ?_, rfl⟩
      simp [Query.WHERE, hok, hc]
    · refine ⟨{ q with history := q.history ++ ["WHERE"],
                       sql := q.sql ++ "WHERE " ++ col ++ " ",
                       col := some (col.replace " " "") }, ?_, rfl⟩
      simp [Query.WHERE, hok, hc]
  · intro hv; subst hv
    refine ⟨{ q with history := q.history ++ ["WHERE"],
                     sql := q.sql ++ "WHERE " ++ col ++ " is null" }, ?_, rfl⟩
    simp [Query.WHERE, hok]
  · intro lit h1 h2 h3
    refine ⟨{ q with history := q.history ++ ["WHERE"],
                     sql := q.sql ++ "WHERE " ++ col ++ " = " ++ lit }, ?_, rfl⟩
    simp only [Query.WHERE, hok]
    rw [if_pos h1, if_neg h2, h3]

/-- A builder state in which WHERE is legal (as after `SELECT a FROM t`). -/
def whereDemoQ : Query :=
  { db := none, sql := "SELECT a FROM t ", history := ["SELECT", "FROM"],
    fields := .fList ["a"], table := some "t", col := none }

/-- Witness for C10 at a concrete builder state and column. -/
theorem where_value_branches_witness :
    (∃ q', whereDemoQ.WHERE "a" (pyStr "") = .ok q' ∧
      q'.sql = whereDemoQ.sql ++ "WHERE " ++ "a" ++ " ") ∧
    (∃ q', whereDemoQ.WHERE "a" pyNone = .ok q' ∧
      q'.sql = whereDemoQ.sql ++ "WHERE " ++ "a" ++ " is null") ∧
    (∃ q', whereDemoQ.WHERE "a" (pyInt 4) = .ok q' ∧
      q'.sql = whereDemoQ.sql ++ "WHERE " ++ "a" ++ " = " ++ "4") :=
  ⟨(where_value_branches whereDemoQ "a" (pyStr "") (by decide)).1 rfl,
   (where_value_branches whereDemoQ "a" pyNone (by decide)).2.1 rfl,
   (where_value_branches whereDemoQ "a" (pyInt 4) (by decide)).2.2 "4"
     (by decide) (by decide) rfl⟩

/-! ### Decode-loop lemmas -/

theorem dictSet_append (d : List (String × PyVal)) (k : String) (v : PyVal)
    (h : k ∉ dictKeys d) : dictSet d k v = d ++ [(k, v)] := by
  unfold dictSet
  rw [if_neg h]

/-- The decode loop succeeds whenever the row is wide enough. -/
theorem buildEntryDict_ok :
    ∀ (fs : List String) (row : List PyVal) (n : Nat) (d : List (String × PyVal)),
    n + fs.length ≤ row.length →
    ∃ d', buildEntryDict row n fs d = .ok d' := by
  intro fs
  induction fs with
  | nil => intro row n d _; exact ⟨d, rfl⟩
  | cons f fs ih =>
    intro row n d hlen
    have hn : n < row.length := by simp at hlen; omega
    obtain ⟨d', hd'⟩ := ih row (n + 1) (dictSet d f row[n]) (by simp at hlen ⊢; omega)
    refine ⟨d', ?_⟩
    simp only [buildEntryDict, List.getElem?_eq_getElem hn]
    exact hd'

/-- The decode loop on fresh, duplicate-free fields extends the dict with
one pair per field, keys in field order, values from the row in order. -/
theorem buildEntryDict_spec :
    ∀ (fs : List String) (row : List PyVal) (n : Nat) (d : List (String × PyVal)),
    fs.Nodup → (∀ f ∈ fs, f ∉ dictKeys d) → n + fs.length ≤ row.length →
    ∃ rest, buildEntryDict row n fs d = .ok (d ++ rest) ∧
      dictKeys rest = fs ∧ dictValues rest = (row.drop n).take fs.length := by
  intro fs
  induction fs with
  | nil =>
    intro row n d _ _ _
    exact ⟨[], by simp [buildEntryDict], rfl, by simp [dictValues]⟩
  | cons f fs ih =>
    intro row n d hnd hfresh hlen
    have hn : n < row.length := by simp at hlen; omega
    have hnds := List.nodup_cons.mp hnd
    have hset : dictSet d f row[n] = d ++ [(f, row[n])] :=
      dictSet_append d f row[n] (hfresh f (List.mem_cons_self f fs))
    obtain ⟨rest, heq, hkeys, hvals⟩ := ih row (n + 1) (d ++ [(f, row[n])])
      hnds.2
      (by
        intro g hg
        simp only [dictKeys, List.map_append] at *
        simp only [List.mem_append]
        rintro (hgd | hgf)
        · exact hfresh g (List.mem_cons_of_mem f hg) hgd
        · simp at hgf
          exact hnds.1 (hgf ▸ hg))
      (by simp at hlen ⊢; omega)
    refine ⟨(f, row[n]) :: rest, ?_, ?_, ?_⟩
    · simp only [buildEntryDict, List.getElem?_eq_getElem hn, hset, heq]
      rw [List.append_assoc]
      rfl
    · simp only [dictKeys, List.map_cons] at hkeys ⊢
      rw [hkeys]
    · simp only [dictValues, List.map_cons] at hvals ⊢
      rw [hvals, List.length_cons]
      conv_rhs => rw [List.drop_eq_getElem_cons hn, List.take_succ_cons]

/-- Decoding a list of sufficiently wide rows succeeds, producing one
entry per row; with duplicate-free fields every entry is keyed exactly by
the fields, in order. -/
theorem rows_decode_ok (fs : List String) (t : Option String) :
    ∀ raw : List (List PyVal), (∀ r ∈ raw, fs.length ≤ r.length) →
    ∃ es, raw.mapM (fun r => do
        let d ← buildEntryDict r 0 fs []
        return ({ table := t, data := d } : DatabaseEntry)) = .ok es ∧
      es.length = raw.length ∧
      (fs.Nodup → ∀ e ∈ es, e.table = t ∧ dictKeys e.data = fs) := by
  intro raw
  induction raw with
  | nil =>
    intro _
    exact ⟨[], by rw [List.mapM_nil]; rfl, rfl, by simp⟩
  | cons r rest ih =>
    intro hw
    obtain ⟨es, hes, hlen, hprop⟩ := ih (fun r hr => hw r (List.mem_cons_of_mem _ hr))
    have hr0 : fs.length ≤ r.length := hw r (List.mem_cons_self r rest)
    obtain ⟨d, hd⟩ := buildEntryDict_ok fs r 0 [] (by omega)
    refine ⟨{ table := t, data := d } :: es, ?_, by simp [hlen], ?_⟩
    · rw [List.mapM_cons, hd, exceptBind_ok, hes]
      rfl
    · intro hnd e he
      rcases List.mem_cons.mp he with he | he
      · subst he
        obtain ⟨restd, hok, hkeys, _⟩ := buildEntryDict_spec fs r 0 []
          hnd (by simp [dictKeys]) (by omega)
        rw [hd] at hok
        injection hok with hok
        simp only [List.nil_append] at hok
        subst hok
        exact ⟨rfl, hkeys⟩
      · exact hprop hnd e he

/-- `raw_table_to_table` on rows that all have exactly the field-list
width never errors and yields one entry per row, each keyed by the
fields when those are duplicate-free. -/
theorem raw_table_to_table_ok_of_widths (raw : List (List PyVal)) (fs : List String)
    (t : Option String) (hw : ∀ r ∈ raw, r.length = fs.length) :
    ∃ es, raw_table_to_table raw (some fs) t = .ok es ∧ es.length = raw.length ∧
      (fs.Nodup → ∀ e ∈ es, e.table = t ∧ dictKeys e.data = fs) := by
  cases raw with
  | nil => exact ⟨[], rfl, rfl, by simp⟩
  | cons r0 rest =>
    obtain ⟨es, hes, hlen, hprop⟩ := rows_decode_ok fs t (r0 :: rest)
      (fun r hr => (hw r hr).ge)
    refine ⟨es, ?_, hlen, hprop⟩
    simp only [raw_table_to_table]
    rw [if_neg (by rw [hw r0 (List.mem_cons_self r0 rest)]; omega)]
    exact hes

/-! ### C6: decode-many error behaviour -/

/-- C6 counterexample: a later row whose width differs from the field
list decodes without any error — only the first row is width-checked —
so "fails whenever any row has a different width" is false. -/
theorem raw_table_to_table_later_row_counterexample :
    raw_table_to_table [[pyInt 1], [pyInt 2, pyInt 3]] (some ["a"]) (some "t") =
      .ok [⟨some "t", [("a", pyInt 1)]⟩, ⟨some "t", [("a", pyInt 2)]⟩] ∧
    ([pyInt 2, pyInt 3] : List PyVal).length ≠ (["a"] : List String).length := by
  exact ⟨rfl, by decide⟩

/-- C6 (amended): decoding raw rows yields an empty output for empty
input (not an error), and fails with the `ShapeError`-class error exactly
when the FIRST row's width differs from the length of the field list;
rows after the first are not width-checked (a wider row decodes with its
surplus values ignored). -/
theorem raw_table_to_table_width_check_first_row :
    ∀ (raw : List (List PyVal)) (fs : List String) (t : Option String),
    (raw = [] → raw_table_to_table raw (some fs) t = .ok []) ∧
    (∀ r0 rest, raw = r0 :: rest → r0.length ≠ fs.length →
      raw_table_to_table raw (some fs) t = .error .shapeErr) ∧
    (∀ r0 rest, raw = r0 :: rest → r0.length = fs.length →
      (∀ r ∈ raw, fs.length ≤ r.length) →
      ∃ es, raw_table_to_table raw (some fs) t = .ok es ∧ es.length = raw.length) := by
  intro raw fs t
  refine ⟨?_, ?_, ?_⟩
  · intro h; subst h; rfl
  · intro r0 rest h hne; subst h
    simp only [raw_table_to_table]
    rw [if_pos hne]
  · intro r0 rest h hw hwide; subst h
    obtain ⟨es, hes, hlen, _⟩ := rows_decode_ok fs t (r0 :: rest) hwide
    refine ⟨es, ?_, hlen⟩
    simp only [raw_table_to_table]
    rw [if_neg (by omega)]
    exact hes

/-- Witness for C6 at concrete inputs: empty input decodes to nothing, a
first-row width mismatch raises the `ShapeError`-class error, and a
well-shaped table decodes to one entry per row. -/
theorem raw_table_to_table_width_check_first_row_witness :
    (raw_table_to_table [] (some ["a"]) (some "t") = .ok []) ∧
    (raw_table_to_table [[pyInt 1, pyInt 2]] (some ["a"]) (some "t") = .error .shapeErr) ∧
    (∃ es, raw_table_to_table [[pyInt 1], [pyInt 2]] (some ["a"]) (some "t") = .ok es ∧
      es.length = ([[pyInt 1], [pyInt 2]] : List (List PyVal)).length) :=
  ⟨(raw_table_to_table_width_check_first_row [] ["a"] (some "t")).1 rfl,
   (raw_table_to_table_width_check_first_row [[pyInt 1, pyInt 2]] ["a"] (some "t")).2.1
     [pyInt 1, pyInt 2] [] rfl (by decide),
   (raw_table_to_table_width_check_first_row [[pyInt 1], [pyInt 2]] ["a"] (some "t")).2.2
     [pyInt 1] [[pyInt 2]] rfl (by decide) (by decide)⟩

/-! ### C5: what a successful `run` does to the builder state -/

/-- A database with one table `t` holding one text column `a` and no
rows, used as concrete input for the run-state theorems. -/
def frameDemoDB : DB :=
  { table_names := ["t"],
    table_cols := fun o => if o = some "t" then [{ name := "a", type := "text" }] else [],
    exec := fun _ => .ok [] }

/-- The builder state `SELECT("*").FROM("t")` reaches on `frameDemoDB`. -/
def frameDemoQ : Query :=
  { db := some frameDemoDB, sql := "SELECT * FROM t ", history := ["SELECT", "FROM"],
    fields := .fStar, table := some "t", col := none }

/-- C5 counterexample: on a reachable builder state with the wildcard
field list, a successful `run` MUTATES `self.fields`, replacing the `"*"`
sentinel by the table's column names — so "no component of the builder
state is changed" is false. -/
theorem run_mutates_wildcard_fields_counterexample :
    ((Query.init (some frameDemoDB)).SELECT (.str "*") >>= fun q1 => q1.FROM "t") =
      .ok frameDemoQ ∧
    ∃ res q', frameDemoQ.run none false = .ok (res, q') ∧
      q'.fields ≠ frameDemoQ.fields ∧ q'.fields = .fList ["a"] ∧
      frameDemoQ.fields = .fStar := by
  refine ⟨rfl, .tableRes [], { frameDemoQ with fields := .fList ["a"] }, rfl, ?_, rfl, rfl⟩
  decide

/-- C5 (amended): a successful `run` never changes the sql text, the
history stack, the recorded table, the attached database or the `col`
attribute, and changes the recorded field list only when it is the
wildcard sentinel (which it resolves to the table's column names). -/
theorem run_preserves_builder_state_except_wildcard :
    ∀ (q : Query) (dbArg : Option DB) (raw : Bool) (res : RunResult) (q' : Query),
    q.run dbArg raw = .ok (res, q') →
    q'.sql = q.sql ∧ q'.history = q.history ∧ q'.table = q.table ∧
    q'.db = q.db ∧ q'.col = q.col ∧
    (q.fields ≠ .fStar → q'.fields = q.fields) := by
  intro q dbArg raw res q' h
  simp only [Query.run] at h
  repeat' split at h
  all_goals
    first
      | exact Except.noConfusion h
      | (injection h with h1
         injection h1 with h2 h3
         subst h3
         exact ⟨rfl, rfl, rfl, rfl, rfl, fun _ => rfl⟩)
      | (injection h with h1
         injection h1 with h2 h3
         subst h3
         exact ⟨rfl, rfl, rfl, rfl, rfl, fun hne => absurd (by assumption) hne⟩)

/-- Witness for C5 (amended) at the concrete state: the successful run
keeps sql, history and table intact. -/
theorem run_preserves_builder_state_witness :
    ∃ res q', frameDemoQ.run none false = .ok (res, q') ∧
      q'.sql = frameDemoQ.sql ∧ q'.history = frameDemoQ.history ∧
      q'.table = frameDemoQ.table := by
  refine ⟨.tableRes [], { frameDemoQ with fields := .fList ["a"] }, rfl, ?_⟩
  have h := run_preserves_builder_state_except_wildcard frameDemoQ none false
    (.tableRes []) { frameDemoQ with fields := .fList ["a"] } rfl
  exact ⟨h.1, h.2.1, h.2.2.1⟩

/-! ### C2: `SELECT("*").FROM(T).run()` -/

/-- The builder state after `Query(db).SELECT("*")`. -/
def selStarQ (db : DB) : Query :=
  { db := some db, sql := "SELECT * ", history := ["SELECT"],
    fields := .fStar, table := none, col := none }

/-- The builder state after `Query(db).SELECT("*").FROM(T)`. -/
def selStarFromQ (db : DB) (T : String) : Query :=
  { db := some db, sql := "SELECT * " ++ "FROM " ++ T ++ " ",
    history := ["SELECT", "FROM"], fields := .fStar, table := some T, col := none }

/-- C2: with the wildcard selection, `SELECT("*").FROM(T).run()` (raw
unset) returns exactly one record per row the engine hands back for
`SELECT * FROM T `, each keyed by the table's column names in ordinal
order — and for an empty table the result is the empty list of records,
never an error and never the null sentinel.  The engine is quantified
through its oracle: `rows` is whatever `cursor.fetchall()` returns, each
row having one value per column (spec section 6 contract). -/
theorem select_star_from_run_returns_all_rows :
    ∀ (db : DB) (T : String) (rows : List (List PyVal)),
    T ∈ db.table_names →
    ((db.table_cols (some T)).map Column.name).Nodup →
    db.exec ("SELECT * FROM " ++ T ++ " ") = .ok rows →
    (∀ r ∈ rows, r.length = ((db.table_cols (some T)).map Column.name).length) →
    ∃ q entries q',
      ((Query.init (some db)).SELECT (.str "*") >>= fun q1 => q1.FROM T) = .ok q ∧
      q.run none false = .ok (.tableRes entries, q') ∧
      entries.length = rows.length ∧
      ∀ e ∈ entries, e.table = some T ∧
        dictKeys e.data = (db.table_cols (some T)).map Column.name := by
  intro db T rows hT hnd hexec hw
  have hist : db.is_table (some T) = true := by simp [DB.is_table, hT]
  have hcn : db.get_column_names (some T) =
      .ok ((db.table_cols (some T)).map Column.name) := by
    unfold DB.get_column_names
    rw [if_pos hist]
  have h1 : (Query.init (some db)).SELECT (.str "*") = .ok (selStarQ db) := rfl
  have h2 : (selStarQ db).FROM T = .ok (selStarFromQ db T) := by
    simp only [Query.FROM,
      show (selStarQ db).valid_prefixes [some "SELECT"] = .ok () from rfl,
      show (selStarQ db).db = some db from rfl,
      show (selStarQ db).fields = .fStar from rfl, hcn]
    rfl
  have hsql : ("SELECT * " ++ "FROM " ++ T ++ " ") = ("SELECT * FROM " ++ T ++ " ") := by
    rw [show ("SELECT * " ++ "FROM ") = "SELECT * FROM " from rfl]
  obtain ⟨es, hdec, hlen, hprop⟩ := raw_table_to_table_ok_of_widths rows
    ((db.table_cols (some T)).map Column.name) (some T) hw
  refine ⟨selStarFromQ db T, es,
    { selStarFromQ db T with fields := .fList ((db.table_cols (some T)).map Column.name) },
    by rw [h1, exceptBind_ok, h2], ?_, hlen, fun e he => hprop hnd e he⟩
  simp only [Query.run, selStarFromQ, hsql, hexec, hcn, hdec]
  rfl

/-- A two-row people table with its engine responses, for the C2
witness. -/
def c2DemoDB : DB :=
  { table_names := ["people"],
    table_cols := fun o => if o = some "people" then
        [{ name := "id", type := "integer", primary_key := true },
         { name := "name", type := "text" }] else [],
    exec := fun s => if s = "SELECT * FROM people " then
        .ok [[pyInt 1, pyStr "ann"], [pyInt 2, pyStr "bob"]] else .ok [] }

/-- Witness for C2 on a concrete two-row table: two records come back,
each keyed `id`, `name`. -/
theorem select_star_from_run_returns_all_rows_witness :
    ∃ q entries q',
      ((Query.init (some c2DemoDB)).SELECT (.str "*") >>= fun q1 => q1.FROM "people") =
        .ok q ∧
      q.run none false = .ok (.tableRes entries, q') ∧
      entries.length = 2 ∧
      ∀ e ∈ entries, e.table = some "people" ∧ dictKeys e.data = ["id", "name"] := by
  obtain ⟨q, entries, q', h1, h2, h3, h4⟩ :=
    select_star_from_run_returns_all_rows c2DemoDB "people"
      [[pyInt 1, pyStr "ann"], [pyInt 2, pyStr "bob"]]
      (by decide) (by decide) rfl (by decide)
  exact ⟨q, entries, q', h1, h2, h3, h4⟩

/-! ### C8: `get_entry_by_id` -/

/-- `from_raw_entry` on a row of matching width and duplicate-free field
names yields the entry keyed by the fields, carrying the row's values in
order. -/
theorem from_raw_entry_spec (row : List PyVal) (fields : List String) (t : Option String)
    (hnd : fields.Nodup) (hlen : row.length = fields.length) :
    ∃ e, DatabaseEntry.from_raw_entry row (.list fields) t = .ok e ∧
      e.table = t ∧ dictKeys e.data = fields ∧ dictValues e.data = row := by
  obtain ⟨rest, hok, hkeys, hvals⟩ := buildEntryDict_spec fields row 0 [] hnd
    (by simp [dictKeys]) (by omega)
  refine ⟨⟨t, rest⟩, ?_, rfl, hkeys, ?_⟩
  · simp only [DatabaseEntry.from_raw_entry, exceptBind_pure]
    rw [if_neg (fun h => h hlen)]
    simp only [hok, List.nil_append, exceptBind_ok]
    rfl
  · rw [hvals, List.drop_zero, ← hlen, List.take_length]

/-- The tail of `get_entry_by_id` after the lookup answered (a proof
abbreviation, definitionally equal to the source's answer handling). -/
def lookupTail (db : DB) (T : String) (answer : List (List PyVal)) :
    Except PyError DatabaseEntry :=
  if answer.length ≠ 1 then
    if answer.length > 1 then .error .ambiguousErr else .error .notFoundErr
  else
    match answer with
    | [row] =>
      match db.get_column_names (some T) with
      | .error e => .error e
      | .ok names => DatabaseEntry.from_raw_entry row (.list names) (some T)
    | _ => .error (.databaseErr "unreachable")

/-- C8: `get_entry_by_id` raises the `SchemaError`-class error when the
table declares no primary key; otherwise it runs the key lookup and
raises the `NotFoundError`-class error for zero answers, the
`AmbiguousResultError`-class error for more than one, and for exactly one
answer returns that row decoded as a record keyed by the table's column
names. -/
theorem get_entry_by_id_cases :
    ∀ (db : DB) (T : String) (ID : PyVal),
    (db.table_id_field (some T) = none →
      db.get_entry_by_id (some T) ID = .error (.noPrimaryKeyErr (some T))) ∧
    (∀ idf, db.table_id_field (some T) = some idf →
      T ∈ db.table_names →
      ∀ answer,
        db.exec ("SELECT * FROM " ++ T ++ " WHERE " ++ idf ++ " = " ++ pyStrOf ID) =
          .ok answer →
      ((answer = [] → db.get_entry_by_id (some T) ID = .error .notFoundErr) ∧
       (1 < answer.length → db.get_entry_by_id (some T) ID = .error .ambiguousErr) ∧
       (∀ row, answer = [row] →
         ((db.table_cols (some T)).map Column.name).Nodup →
         row.length = ((db.table_cols (some T)).map Column.name).length →
         ∃ e, db.get_entry_by_id (some T) ID = .ok e ∧ e.table = some T ∧
           dictKeys e.data = (db.table_cols (some T)).map Column.name ∧
           dictValues e.data = row))) := by
  intro db T ID
  constructor
  · intro h
    simp only [DB.get_entry_by_id, h]
  · intro idf hidf hT answer hexec
    have hist : db.is_table (some T) = true := by simp [DB.is_table, hT]
    have hcn : db.get_column_names (some T) =
        .ok ((db.table_cols (some T)).map Column.name) := by
      unfold DB.get_column_names
      rw [if_pos hist]
    have hbase : db.get_entry_by_id (some T) ID = lookupTail db T answer := by
      simp only [DB.get_entry_by_id, hidf]
      rw [if_neg (by simp [hist])]
      simp only [optTableText]
      rw [hexec]
      rfl
    refine ⟨?_, ?_, ?_⟩
    · intro h; subst h
      rw [hbase]
      rfl
    · intro h
      rw [hbase]
      unfold lookupTail
      rw [if_pos (by omega), if_pos (by omega)]
    · intro row h hnd hlen
      subst h
      obtain ⟨e, he, ht, hk, hv⟩ := from_raw_entry_spec row
        ((db.table_cols (some T)).map Column.name) (some T) hnd hlen
      refine ⟨e, ?_, ht, hk, hv⟩
      rw [hbase]
      show (match db.get_column_names (some T) with
            | Except.error err => Except.error err
            | Except.ok names =>
              DatabaseEntry.from_raw_entry row (FieldsArg.list names) (some T)) =
        Except.ok e
      rw [hcn]
      exact he

/-- Tables for the C8 witness: `people` has an integer primary key and
two columns; `nopk` has no primary key; the engine answers the three key
lookups with one, zero and two rows respectively. -/
def c8DemoDB : DB :=
  { table_names := ["people", "nopk"],
    table_cols := fun o =>
      if o = some "people" then
        [{ name := "id", type := "integer", primary_key := true },
         { name := "name", type := "text" }]
      else if o = some "nopk" then [{ name := "a", type := "text" }]
      else [],
    exec := fun s =>
      if s = "SELECT * FROM people WHERE id = 1" then .ok [[pyInt 1, pyStr "ann"]]
      else if s = "SELECT * FROM people WHERE id = 2" then
        .ok [[pyInt 2, pyStr "b"], [pyInt 2, pyStr "c"]]
      else .ok [] }

/-- Witness for C8: all four outcomes at concrete inputs. -/
theorem get_entry_by_id_cases_witness :
    c8DemoDB.get_entry_by_id (some "nopk") (pyInt 1) =
      .error (.noPrimaryKeyErr (some "nopk")) ∧
    c8DemoDB.get_entry_by_id (some "people") (pyInt 9) = .error .notFoundErr ∧
    c8DemoDB.get_entry_by_id (some "people") (pyInt 2) = .error .ambiguousErr ∧
    ∃ e, c8DemoDB.get_entry_by_id (some "people") (pyInt 1) = .ok e ∧
      e.table = some "people" ∧ dictKeys e.data = ["id", "name"] ∧
      dictValues e.data = [pyInt 1, pyStr "ann"] := by
  refine ⟨(get_entry_by_id_cases c8DemoDB "nopk" (pyInt 1)).1 rfl,
    ((get_entry_by_id_cases c8DemoDB "people" (pyInt 9)).2 "id" rfl (by decide) [] rfl).1 rfl,
    ((get_entry_by_id_cases c8DemoDB "people" (pyInt 2)).2 "id" rfl (by decide)
      [[pyInt 2, pyStr "b"], [pyInt 2, pyStr "c"]] rfl).2.1 (by decide), ?_⟩
  obtain ⟨e, h1, h2, h3, h4⟩ :=
    ((get_entry_by_id_cases c8DemoDB "people" (pyInt 1)).2 "id" rfl (by decide)
      [[pyInt 1, pyStr "ann"]] rfl).2.2 [pyInt 1, pyStr "ann"] rfl (by decide) (by decide)
  exact ⟨e, h1, h2, h3, h4⟩

/-! ### C7: the return value of `add_entry` -/

/-- A primary-keyed people table whose engine reports 7 as the last
generated key. -/
def c7DemoDB : DB :=
  { table_names := ["people"],
    table_cols := fun o => if o = some "people" then
        [{ name := "id", type := "integer", primary_key := true },
         { name := "name", type := "text" }] else [],
    exec := fun s => if s = "SELECT last_insert_rowid()" then .ok [[pyInt 7]] else .ok [] }

/-- C7 (code bug): `add_entry` gates its return value on
`self.get_table_id_field(table)` using the `table` PARAMETER instead of
`entry.table`.  When the entry is passed as a table-tagged
`DatabaseEntry` (so `table` is `None`), the successful insert into the
primary-keyed `people` table returns `None` — although the table has a
primary key (`id`) and the engine reports a last-generated key (7), which
the docstring and the claim say should be returned.  Passing the same
data as a mapping plus the table name returns the key, showing the
divergence between the two call forms. -/
theorem add_entry_pk_return_bug :
    DB.add_entry c7DemoDB (.entry ⟨some "people", [("name", pyStr "x")]⟩) none false =
      .ok none ∧
    c7DemoDB.table_id_field (some "people") = some "id" ∧
    c7DemoDB.exec "SELECT last_insert_rowid()" = .ok [[pyInt 7]] ∧
    DB.add_entry c7DemoDB (.dict [("name", pyStr "x")]) (some "people") false =
      .ok (some (pyInt 7)) :=
  ⟨rfl, rfl, rfl, rfl⟩

/-! ### C3: the decode/encode round trip

First the string-literal round trip, then the numeral round trips, then
the per-value and per-row theorems. -/

theorem parseStrLit_esc (l : List Char) :
    parseStrLit (escQuotes l ++ ['\'']) = some l := by
  induction l with
  | nil => rfl
  | cons c rest ih =>
    by_cases hc : c = '\''
    · subst hc
      simp [escQuotes, parseStrLit, ih]
    · rw [show escQuotes (c :: rest) = c :: escQuotes rest from by simp [escQuotes, hc],
        List.cons_append, parseStrLit.eq_def]
      simp [hc, ih]

theorem digitsRevAux_eq (fuel : Nat) :
    ∀ n : Nat, n ≤ fuel → digitsRevAux fuel n = Nat.digits 10 n := by
  induction fuel with
  | zero =>
    intro n hn
    interval_cases n
    simp [digitsRevAux, Nat.digits_zero]
  | succ fuel ih =>
    intro n hn
    by_cases h0 : n = 0
    · subst h0; simp [digitsRevAux, Nat.digits_zero]
    · have hpos : 0 < n := Nat.pos_of_ne_zero h0
      have hstep := Nat.digits_def' (b := 10) (by norm_num) hpos
      have hdiv : n / 10 < n := Nat.div_lt_self hpos (by norm_num)
      simp only [digitsRevAux, if_neg h0]
      rw [hstep, ih (n / 10) (by omega)]

theorem natDigitsRev_eq (n : Nat) : natDigitsRev n = Nat.digits 10 n :=
  digitsRevAux_eq n n le_rfl

theorem digitChar_facts :
    ∀ d : Nat, d < 10 →
      (Nat.digitChar d).isDigit = true ∧ digitVal (Nat.digitChar d) = d ∧
      Nat.digitChar d ≠ '\'' ∧ Nat.digitChar d ≠ '-' ∧ Nat.digitChar d ≠ '.' := by
  decide

theorem foldl_digits (ds : List Nat) (hds : ∀ d ∈ ds, d < 10) (a : Nat) :
    List.foldl (fun acc c => acc * 10 + digitVal c) a ((ds.map Nat.digitChar).reverse) =
      a * 10 ^ ds.length + Nat.ofDigits 10 ds := by
  induction ds generalizing a with
  | nil => simp [Nat.ofDigits_nil]
  | cons d ds ih =>
    have hd := (digitChar_facts d (hds d (List.mem_cons_self d ds))).2.1
    simp only [List.map_cons, List.reverse_cons, List.foldl_append, List.foldl_cons,
      List.foldl_nil]
    rw [ih (fun x hx => hds x (List.mem_cons_of_mem d hx))]
    rw [hd, Nat.ofDigits_cons, List.length_cons]
    ring

theorem foldl_natReprChars (n : Nat) :
    List.foldl (fun acc c => acc * 10 + digitVal c) 0 (natReprChars n) = n := by
  by_cases h0 : n = 0
  · subst h0; rfl
  · unfold natReprChars
    rw [if_neg h0, natDigitsRev_eq,
      foldl_digits (Nat.digits 10 n) (fun d hd => Nat.digits_lt_base (by norm_num) hd) 0]
    simp [Nat.ofDigits_digits]

theorem natReprChars_ne_nil (n : Nat) : natReprChars n ≠ [] := by
  unfold natReprChars
  by_cases h0 : n = 0
  · simp [h0]
  · rw [if_neg h0]
    simp only [ne_eq, List.reverse_eq_nil_iff, List.map_eq_nil_iff]
    rw [natDigitsRev_eq]
    exact Nat.digits_ne_nil_iff_ne_zero.mpr h0

theorem natReprChars_all_digits (n : Nat) :
    ∀ c ∈ natReprChars n, c.isDigit = true := by
  intro c hc
  unfold natReprChars at hc
  by_cases h0 : n = 0
  · rw [if_pos h0] at hc
    simp at hc
    subst hc; decide
  · rw [if_neg h0, natDigitsRev_eq] at hc
    rw [List.mem_reverse, List.mem_map] at hc
    obtain ⟨d, hd, rfl⟩ := hc
    exact (digitChar_facts d (Nat.digits_lt_base (by norm_num) hd)).1

theorem parseNatDigits_repr (n : Nat) : parseNatDigits (natReprChars n) = some n := by
  unfold parseNatDigits
  rw [if_neg (by simp [natReprChars_ne_nil n]), if_pos (List.all_eq_true.mpr
    (fun c hc => natReprChars_all_digits n c hc)), foldl_natReprChars]

theorem isDigit_ne_minus {c : Char} (h : c.isDigit = true) : c ≠ '-' := by
  intro he; subst he; exact absurd h (by decide)

theorem isDigit_ne_quote {c : Char} (h : c.isDigit = true) : c ≠ '\'' := by
  intro he; subst he; exact absurd h (by decide)

theorem isDigit_ne_dot {c : Char} (h : c.isDigit = true) : c ≠ '.' := by
  intro he; subst he; exact absurd h (by decide)

theorem parseIntLit_intRepr (i : Int) : parseIntLit (intReprChars i) = some i := by
  unfold intReprChars
  by_cases hi : i < 0
  · rw [if_pos hi]
    simp only [parseIntLit, if_true]
    rw [parseNatDigits_repr]
    have h2 : -(↑(i.natAbs) : Int) = i := by omega
    simp [h2]
    rw [abs_of_neg hi, neg_neg]
  · rw [if_neg hi]
    cases hrc : natReprChars i.natAbs with
    | nil => exact absurd hrc (natReprChars_ne_nil _)
    | cons c cs =>
      have hdig : c.isDigit = true :=
        natReprChars_all_digits _ c (hrc ▸ List.mem_cons_self c cs)
      simp only [parseIntLit]
      rw [if_neg (isDigit_ne_minus hdig), ← hrc, parseNatDigits_repr]
      have h2 : (↑(i.natAbs) : Int) = i := by omega
      simp [h2]

theorem foldl_zeros (k : Nat) (l : List Char) :
    List.foldl (fun acc c => acc * 10 + digitVal c) 0 (List.replicate k '0' ++ l) =
      List.foldl (fun acc c => acc * 10 + digitVal c) 0 l := by
  induction k with
  | zero => rfl
  | succ k ih =>
    rw [List.replicate_succ, List.cons_append, List.foldl_cons,
      show (0 * 10 + digitVal '0') = 0 from by decide, ih]

theorem splitDot_append (l1 l2 : List Char) (h1 : '.' ∉ l1) (h2 : '.' ∉ l2) :
    splitDot (l1 ++ '.' :: l2) = some (l1, l2) := by
  induction l1 with
  | nil => simp [splitDot, h2]
  | cons c cs ih =>
    have hc : c ≠ '.' := fun he => h1 (he ▸ List.mem_cons_self c cs)
    rw [List.cons_append]
    simp only [splitDot]
    rw [if_neg hc, ih (fun hm => h1 (List.mem_cons_of_mem c hm))]
    rfl

theorem parseNatDigits_of_dot (l : List Char) (h : '.' ∈ l) : parseNatDigits l = none := by
  have hne : l.isEmpty = false := by
    cases l
    · simp at h
    · rfl
  have hall : ¬ (l.all Char.isDigit = true) := fun hall =>
    absurd (List.all_eq_true.mp hall '.' h) (by decide)
  unfold parseNatDigits
  rw [if_neg (by simp [hne]), if_neg hall]

theorem paddedChars_all_digits (n e : Nat) :
    ∀ c ∈ paddedChars n e, c.isDigit = true := by
  intro c hc
  rcases List.mem_append.mp hc with h | h
  · rw [List.eq_of_mem_replicate h]; decide
  · exact natReprChars_all_digits n c h

theorem paddedChars_length (n e : Nat) : e + 1 ≤ (paddedChars n e).length := by
  have := natReprChars_ne_nil n
  have hpos : 0 < (natReprChars n).length := List.length_pos.mpr this
  simp only [paddedChars, List.length_append, List.length_replicate]
  omega

theorem foldl_paddedChars (n e : Nat) :
    List.foldl (fun acc c => acc * 10 + digitVal c) 0 (paddedChars n e) = n := by
  unfold paddedChars
  rw [foldl_zeros]
  exact foldl_natReprChars n

theorem dot_mem_decimalChars (n e : Nat) : '.' ∈ decimalChars n e := by
  unfold decimalChars
  exact List.mem_append_right _ (List.mem_cons_self _ _)

theorem decimalChars_head (n e : Nat) :
    ∃ c cs, decimalChars n e = c :: cs ∧ c.isDigit = true := by
  have hpl := paddedChars_length n e
  have hiplen : ((paddedChars n e).take ((paddedChars n e).length - e)).length =
      (paddedChars n e).length - e := by
    simp [List.length_take]
  have hip_ne : (paddedChars n e).take ((paddedChars n e).length - e) ≠ [] := by
    intro hnil
    rw [hnil] at hiplen
    simp at hiplen
    omega
  obtain ⟨c, cs, hip⟩ := List.exists_cons_of_ne_nil hip_ne
  refine ⟨c, cs ++ '.' :: (paddedChars n e).drop ((paddedChars n e).length - e), ?_, ?_⟩
  · unfold decimalChars
    rw [hip, List.cons_append]
  · exact paddedChars_all_digits n e c
      (List.mem_of_mem_take (hip ▸ List.mem_cons_self c cs))

theorem isEmpty_false_of_length_pos {l : List Char} (h : 0 < l.length) :
    l.isEmpty = false := by
  cases l
  · simp at h
  · rfl

theorem parseNatDigits_padded (n e : Nat) : parseNatDigits (paddedChars n e) = some n := by
  have hpl := paddedChars_length n e
  unfold parseNatDigits
  rw [if_neg (by simp [isEmpty_false_of_length_pos (show 0 < (paddedChars n e).length by omega)]),
    if_pos (List.all_eq_true.mpr (paddedChars_all_digits n e)), foldl_paddedChars]

theorem parseDecDigits_decimal (n e : Nat) (he : 1 ≤ e) :
    parseDecDigits (decimalChars n e) = some (n, e) := by
  have hpl := paddedChars_length n e
  have hip : '.' ∉ (paddedChars n e).take ((paddedChars n e).length - e) := fun hm =>
    absurd (paddedChars_all_digits n e '.' (List.mem_of_mem_take hm)) (by decide)
  have hfp : '.' ∉ (paddedChars n e).drop ((paddedChars n e).length - e) := fun hm =>
    absurd (paddedChars_all_digits n e '.' (List.mem_of_mem_drop hm)) (by decide)
  have hiplen : ((paddedChars n e).take ((paddedChars n e).length - e)).length =
      (paddedChars n e).length - e := by
    simp [List.length_take]
  have hfplen : ((paddedChars n e).drop ((paddedChars n e).length - e)).length = e := by
    simp only [List.length_drop]
    omega
  have hipne := isEmpty_false_of_length_pos (l := (paddedChars n e).take
    ((paddedChars n e).length - e)) (by rw [hiplen]; omega)
  have hfpne := isEmpty_false_of_length_pos (l := (paddedChars n e).drop
    ((paddedChars n e).length - e)) (by rw [hfplen]; omega)
  unfold decimalChars parseDecDigits
  rw [splitDot_append _ _ hip hfp]
  simp only [Option.bind_eq_bind, Option.some_bind]
  rw [if_neg (by simp [hipne, hfpne]), List.take_append_drop, parseNatDigits_padded]
  simp only [Option.some_bind]
  rw [hfplen]
  rfl

theorem parseFloatLit_floatRepr (m : Int) (e : Nat) (he : 1 ≤ e) :
    parseFloatLit (floatReprChars m e) = some (m, e) := by
  unfold floatReprChars
  by_cases hm : m < 0
  · rw [if_pos hm]
    simp only [parseFloatLit, if_true]
    rw [parseDecDigits_decimal _ _ he]
    have h2 : -(↑(m.natAbs) : Int) = m := by omega
    simp [h2]
    rw [abs_of_neg hm, neg_neg]
  · rw [if_neg hm]
    obtain ⟨c, cs, hdc, hcd⟩ := decimalChars_head m.natAbs e
    rw [hdc]
    simp only [parseFloatLit]
    rw [if_neg (isDigit_ne_minus hcd), ← hdc, parseDecDigits_decimal _ _ he]
    have h2 : (↑(m.natAbs) : Int) = m := by omega
    simp [h2]

theorem parseIntLit_floatRepr (m : Int) (e : Nat) :
    parseIntLit (floatReprChars m e) = none := by
  have hdot := dot_mem_decimalChars m.natAbs e
  unfold floatReprChars
  by_cases hm : m < 0
  · rw [if_pos hm]
    simp only [parseIntLit, if_true]
    rw [parseNatDigits_of_dot _ hdot]
    rfl
  · rw [if_neg hm]
    obtain ⟨c, cs, hdc, hcd⟩ := decimalChars_head m.natAbs e
    rw [hdc]
    simp only [parseIntLit]
    rw [if_neg (isDigit_ne_minus hcd), ← hdc, parseNatDigits_of_dot _ hdot]
    rfl

theorem evalLiteral_str (s : String) :
    evalLiteral ("'" ++ String.mk (escQuotes s.data) ++ "'") = some (pyStr s) := by
  have hdata : ("'" ++ String.mk (escQuotes s.data) ++ "'").data =
      '\'' :: (escQuotes s.data ++ ['\'']) := rfl
  simp only [evalLiteral, hdata, if_true]
  rw [parseStrLit_esc]
  rfl

theorem evalLiteral_int (i : Int) :
    evalLiteral (String.mk (intReprChars i)) = some (pyInt i) := by
  have hne : String.mk (intReprChars i) ≠ "null" := by
    intro he
    have h2 := parseIntLit_intRepr i
    have h3 : intReprChars i = ("null" : String).data := congrArg String.data he
    rw [h3, show parseIntLit (("null" : String).data) = none from rfl] at h2
    exact Option.noConfusion h2
  obtain ⟨c, cs, hcons, hcq⟩ : ∃ c cs, intReprChars i = c :: cs ∧ c ≠ '\'' := by
    unfold intReprChars
    by_cases hi : i < 0
    · rw [if_pos hi]
      exact ⟨'-', _, rfl, by decide⟩
    · rw [if_neg hi]
      obtain ⟨c, cs, h⟩ := List.exists_cons_of_ne_nil (natReprChars_ne_nil i.natAbs)
      exact ⟨c, cs, h,
        isDigit_ne_quote (natReprChars_all_digits _ c (h ▸ List.mem_cons_self c cs))⟩
  have hp2 : parseIntLit (c :: cs) = some i := hcons ▸ parseIntLit_intRepr i
  simp only [evalLiteral, hcons]
  rw [if_neg hcq, if_neg (hcons ▸ hne), hp2]

theorem evalLiteral_float (m : Int) (e : Nat) (he : 1 ≤ e) :
    evalLiteral (String.mk (floatReprChars m e)) = some (pyFloat m e) := by
  have hne : String.mk (floatReprChars m e) ≠ "null" := by
    intro he2
    have h2 := parseFloatLit_floatRepr m e he
    have h3 : floatReprChars m e = ("null" : String).data := congrArg String.data he2
    rw [h3, show parseFloatLit (("null" : String).data) = none from rfl] at h2
    exact Option.noConfusion h2
  obtain ⟨c, cs, hcons, hcq⟩ : ∃ c cs, floatReprChars m e = c :: cs ∧ c ≠ '\'' := by
    unfold floatReprChars
    by_cases hm : m < 0
    · rw [if_pos hm]
      exact ⟨'-', _, rfl, by decide⟩
    · rw [if_neg hm]
      obtain ⟨c, cs, h, hd⟩ := decimalChars_head m.natAbs e
      exact ⟨c, cs, h, isDigit_ne_quote hd⟩
  have hpi : parseIntLit (c :: cs) = none := hcons ▸ parseIntLit_floatRepr m e
  have hpf : parseFloatLit (c :: cs) = some (m, e) := hcons ▸ parseFloatLit_floatRepr m e he
  simp only [evalLiteral, hcons]
  rw [if_neg hcq, if_neg (hcons ▸ hne), hpi, hpf]

/-- Per-value round trip: every storable value's literal, as produced by
the encoder, evaluates back to the value under the engine's literal
semantics. -/
theorem eval_encode (v : PyVal) (hs : Storable v) :
    ∃ lit, value_to_sql_value v = .ok lit ∧ evalLiteral lit = some v := by
  cases v with
  | pyStr s => exact ⟨_, rfl, evalLiteral_str s⟩
  | pyInt i => exact ⟨_, rfl, evalLiteral_int i⟩
  | pyFloat m e => exact ⟨_, rfl, evalLiteral_float m e hs⟩
  | pyNone => exact ⟨"null", rfl, rfl⟩
  | pyBool b => exact hs.elim
  | pyList l => exact hs.elim
  | pyOther => exact hs.elim

/-- Row-level version of `eval_encode`. -/
theorem mapM_eval_encode (vals : List PyVal) (h : ∀ v ∈ vals, Storable v) :
    ∃ lits, vals.mapM value_to_sql_value = .ok lits ∧
      lits.map evalLiteral = vals.map some := by
  induction vals with
  | nil => exact ⟨[], by rw [List.mapM_nil]; rfl, rfl⟩
  | cons v rest ih =>
    obtain ⟨lits, hl, hev⟩ := ih (fun x hx => h x (List.mem_cons_of_mem v hx))
    obtain ⟨lit, henc, heval⟩ := eval_encode v (h v (List.mem_cons_self v rest))
    refine ⟨lit :: lits, ?_, ?_⟩
    · rw [List.mapM_cons, henc, exceptBind_ok, hl]
      rfl
    · simp [heval, hev]

/-- The key-indexed encoding of `Query.VALUES` equals the value-list
encoding. -/
theorem mapM_snd (d : List (String × PyVal)) :
    d.mapM (fun kv => value_to_sql_value kv.2) =
      (d.map Prod.snd).mapM value_to_sql_value := by
  induction d with
  | nil => rfl
  | cons kv rest ih =>
    rw [List.map_cons, List.mapM_cons, List.mapM_cons, ih]

/-- C3: for every table tag, duplicate-free field list and row of
storable values read from the engine, decoding the row into a record
(`DatabaseEntry.from_raw_entry`) and re-encoding each value
literal-by-literal — the expression `Query.VALUES` uses to build the
INSERT statement — produces literals that the engine (spec-modelled
`evalLiteral`, section 6) evaluates back to exactly the original row. -/
theorem decode_encode_roundtrip :
    ∀ (T : Option String) (fields : List String) (r : List PyVal),
    fields.Nodup → r.length = fields.length → (∀ v ∈ r, Storable v) →
    ∃ e lits,
      DatabaseEntry.from_raw_entry r (.list fields) T = .ok e ∧
      dictValues e.data = r ∧
      e.data.mapM (fun kv => value_to_sql_value kv.2) = .ok lits ∧
      lits.map evalLiteral = r.map some := by
  intro T fields r hnd hlen hst
  obtain ⟨e, he, _, _, hv⟩ := from_raw_entry_spec r fields T hnd hlen
  obtain ⟨lits, hl, hev⟩ := mapM_eval_encode r hst
  refine ⟨e, lits, he, hv, ?_, hev⟩
  rw [mapM_snd, show e.data.map Prod.snd = r from hv]
  exact hl

/-- Witness for C3 at a concrete row holding an integer, a string with an
embedded quote, a real and a null. -/
theorem decode_encode_roundtrip_witness :
    ∃ e lits,
      DatabaseEntry.from_raw_entry [pyInt 5, pyStr "a'b", pyFloat 35 1, pyNone]
        (.list ["id", "name", "score", "note"]) (some "t") = .ok e ∧
      dictValues e.data = [pyInt 5, pyStr "a'b", pyFloat 35 1, pyNone] ∧
      e.data.mapM (fun kv => value_to_sql_value kv.2) = .ok lits ∧
      lits.map evalLiteral = [pyInt 5, pyStr "a'b", pyFloat 35 1, pyNone].map some :=
  decode_encode_roundtrip (some "t") ["id", "name", "score", "note"]
    [pyInt 5, pyStr "a'b", pyFloat 35 1, pyNone] (by decide) (by decide) (by decide)
